import Mathlib

/-!
Verification of the water-brakes terrain pipeline (src/model.py,
src/utils/coordinates.py) against its specification.

A pandas DataFrame is modelled as an ordered column store: a list of
(column name, list of cell values).  Cell values are rationals (standing
for finite floats), strings, or the marker `Val.nf` for a non-finite
float (NaN or ±infinity).  Fallible operations (numpy / sklearn raises)
return `Except PErr`.  External libraries (pyproj transformers, sklearn
KMeans, numpy arctan2) are taken as explicit function parameters of the
pipeline; everything else is translated statement by statement from the
Python source.
-/

/-- A cell value: a finite numeric value, a string, or a non-finite
float (NaN or ±infinity, which pandas/numpy carry without raising). -/
inductive Val where
  | num (q : ℚ)
  | str (s : String)
  | nf
deriving DecidableEq

/-- A DataFrame: ordered list of named columns. -/
abbrev Dataset := List (String × List Val)

/-- Pipeline-level errors (Python exceptions propagating out). -/
inductive PErr where
  | crsError (fromCrs : String)
  | valueError
deriving DecidableEq

def colNames (d : Dataset) : List String := d.map (fun c => c.1)

/-- `name in data.columns`. -/
def hasCol (d : Dataset) (name : String) : Bool := d.any (fun c => c.1 = name)

/-- `data[name]` (first column with that exact name; [] when absent). -/
def getColVals (d : Dataset) (name : String) : List Val :=
  match d.find? (fun c => c.1 = name) with
  | some c => c.2
  | none => []

/-- `data[name] = vals`: overwrite in place when the column exists,
otherwise append it at the end (pandas column-assignment semantics). -/
def setCol (d : Dataset) (name : String) (vals : List Val) : Dataset :=
  if hasCol d name then d.map (fun c => if c.1 = name then (name, vals) else c)
  else d ++ [(name, vals)]

/-- `len(data)`: the row count (length of the first column). -/
def numRows (d : Dataset) : Nat :=
  match d with
  | [] => 0
  | c :: _ => c.2.length

def vnum : Val → Option ℚ
  | Val.num q => some q
  | _ => none

def o2v : Option ℚ → Val
  | some q => Val.num q
  | none => Val.nf

/-- Numeric reading of a cell, defaulting to 0 (used where the Python
code would feed the raw value to a numeric routine). -/
def valNum (v : Val) : ℚ := (vnum v).getD 0

/-- `str.lower()` (ASCII, structural so that it evaluates in the kernel). -/
def lowerStr (s : String) : String := String.mk (s.data.map Char.toLower)

/-- `str.upper()`. -/
def upperStr (s : String) : String := String.mk (s.data.map Char.toUpper)

/-! ## Column detection (utils/coordinates.py) -/

def LAT_PATTERNS : List String := ["latitude", "lat", "y"]
def LON_PATTERNS : List String := ["longitude", "lon", "long", "lng", "x"]
def EASTING_PATTERNS : List String := ["easting", "east", "e"]
def NORTHING_PATTERNS : List String := ["northing", "north", "n"]

/-- `columns_lower = {col.lower(): col for col in data.columns}` followed
by `columns_lower[key]`: the last column whose lowercased name equals
`key` wins (later dict insertions overwrite earlier ones). -/
def columnsLower (cols : List String) (key : String) : Option String :=
  (cols.filter (fun c => lowerStr c = key)).getLast?

/-- `for pattern in patterns: if pattern in columns_lower: ... break` —
the first pattern present wins. -/
def findPattern (pats : List String) (cols : List String) : Option String :=
  pats.findSome? (fun p => columnsLower cols p)

/-- Result of `detect_coordinate_system` (the dict's `type` plus bound
column names). -/
inductive Descriptor where
  | utm (easting_col northing_col : String)
  | latlon (lat_col lon_col : String)
  | unknown
deriving DecidableEq

def descType : Descriptor → String
  | Descriptor.utm _ _ => "utm"
  | Descriptor.latlon _ _ => "latlon"
  | Descriptor.unknown => "unknown"

/-- `v.between(lo, hi)` for one cell: inclusive bounds; NaN (and a
non-numeric cell, which pandas would reject) compares false. -/
def vBetween (lo hi : ℚ) (v : Val) : Bool :=
  match v with
  | Val.num q => decide (lo ≤ q ∧ q ≤ hi)
  | _ => false

/-- `detect_coordinate_system(data)` from utils/coordinates.py:
Easting/Northing checked first; lat/lon only if no such pair, with
range validation of the values. -/
def detectCoordinateSystem (d : Dataset) : Descriptor :=
  match findPattern EASTING_PATTERNS (colNames d), findPattern NORTHING_PATTERNS (colNames d) with
  | some e, some n => Descriptor.utm e n
  | _, _ =>
    match findPattern LAT_PATTERNS (colNames d), findPattern LON_PATTERNS (colNames d) with
    | some la, some lo =>
      if (getColVals d la).all (vBetween (-90) 90) && (getColVals d lo).all (vBetween (-180) 180)
      then Descriptor.latlon la lo
      else Descriptor.unknown
    | _, _ => Descriptor.unknown

/-! ## UTM zone and CRS resolution (utils/coordinates.py, model.py) -/

/-- `get_utm_epsg_code(zone, hemisphere)`: `N` (after upper-casing) maps
to `32600 + zone`, anything else to `32700 + zone`. -/
def get_utm_epsg_code (zone : Int) (hemisphere : String) : String :=
  if upperStr hemisphere = "N" then "EPSG:" ++ toString (32600 + zone)
  else "EPSG:" ++ toString (32700 + zone)

/-- Python truthiness of an optional string argument (`if custom_epsg:`):
absent or empty is falsy. -/
def truthyOptStr : Option String → Bool
  | some s => decide (s ≠ "")
  | none => false

/-- Python truthiness of an optional int argument (`elif utm_zone:`):
absent or zero is falsy. -/
def truthyOptInt : Option Int → Bool
  | some z => decide (z ≠ 0)
  | none => false

/-- The `from_crs` resolution chain of the `utm` branch of
`process_csv_data`: `custom_epsg` if truthy, else `utm_zone` if truthy,
else the documented default `EPSG:32644`. -/
def resolveFromCrs (customEpsg : Option String) (utmZone : Option Int)
    (utmHemisphere : String) : String :=
  if truthyOptStr customEpsg then customEpsg.getD ""
  else if truthyOptInt utmZone then get_utm_epsg_code (utmZone.getD 0) utmHemisphere
  else "EPSG:32644"

/-! ## np.gradient (1-D, edge_order 1)

`np.gradient(f)` uses unit spacing; `np.gradient(f, x)` uses the
coordinate array `x`: one-sided differences at the two endpoints and the
three-point non-uniform centered formula at interior points.  A division
whose denominator is zero yields a non-finite float in numpy (±inf or
NaN, with the non-finiteness propagating through the surrounding sums
and products), modelled as `none`/`Val.nf`; a non-numeric operand (NaN
input) likewise yields NaN.  `np.gradient` raises when the array has
fewer than two elements or the coordinate array length mismatches. -/

def gradUniformAt (f : List Val) (i : Nat) : Option ℚ :=
  if i = 0 then
    match vnum (f.getD 1 Val.nf), vnum (f.getD 0 Val.nf) with
    | some a, some b => some (a - b)
    | _, _ => none
  else if i = f.length - 1 then
    match vnum (f.getD (f.length - 1) Val.nf), vnum (f.getD (f.length - 2) Val.nf) with
    | some a, some b => some (a - b)
    | _, _ => none
  else
    match vnum (f.getD (i + 1) Val.nf), vnum (f.getD (i - 1) Val.nf) with
    | some a, some b => some ((a - b) / 2)
    | _, _ => none

def gradUniform (f : List Val) : Except PErr (List Val) :=
  if f.length < 2 then Except.error PErr.valueError
  else Except.ok ((List.range f.length).map (fun i => o2v (gradUniformAt f i)))

def gradCoordAt (f x : List Val) (i : Nat) : Option ℚ :=
  if i = 0 then
    match vnum (f.getD 1 Val.nf), vnum (f.getD 0 Val.nf),
          vnum (x.getD 1 Val.nf), vnum (x.getD 0 Val.nf) with
    | some f1, some f0, some x1, some x0 =>
      if x1 - x0 = 0 then none else some ((f1 - f0) / (x1 - x0))
    | _, _, _, _ => none
  else if i = f.length - 1 then
    match vnum (f.getD (f.length - 1) Val.nf), vnum (f.getD (f.length - 2) Val.nf),
          vnum (x.getD (x.length - 1) Val.nf), vnum (x.getD (x.length - 2) Val.nf) with
    | some f1, some f0, some x1, some x0 =>
      if x1 - x0 = 0 then none else some ((f1 - f0) / (x1 - x0))
    | _, _, _, _ => none
  else
    match vnum (f.getD (i - 1) Val.nf), vnum (f.getD i Val.nf), vnum (f.getD (i + 1) Val.nf),
          vnum (x.getD (i - 1) Val.nf), vnum (x.getD i Val.nf), vnum (x.getD (i + 1) Val.nf) with
    | some fm, some f0, some fp, some xm, some x0, some xp =>
      let dx1 := x0 - xm
      let dx2 := xp - x0
      if dx1 * (dx1 + dx2) = 0 ∨ dx1 * dx2 = 0 ∨ dx2 * (dx1 + dx2) = 0 then none
      else some (-dx2 / (dx1 * (dx1 + dx2)) * fm
        + (dx2 - dx1) / (dx1 * dx2) * f0
        + dx1 / (dx2 * (dx1 + dx2)) * fp)
    | _, _, _, _, _, _ => none

def gradCoord (f x : List Val) : Except PErr (List Val) :=
  if f.length < 2 ∨ x.length ≠ f.length then Except.error PErr.valueError
  else Except.ok ((List.range f.length).map (fun i => o2v (gradCoordAt f x i)))

/-! ## Distance epsilon replacement (model.py lines 87-89) -/

/-- `data['Distance (m)'].replace(0, 1e-6)` cell-wise. -/
def zeroEps (v : Val) : Val := if v = Val.num 0 then Val.num (1 / 1000000) else v

def replaceZeros (l : List Val) : List Val := l.map zeroEps

/-- The `if 'Distance (m)' in data.columns:` replacement statement. -/
def distanceStage (data : Dataset) : Dataset :=
  if hasCol data "Distance (m)" then
    setCol data "Distance (m)" (replaceZeros (getColVals data "Distance (m)"))
  else data

/-! ## Coordinate transformation (utils/coordinates.py) -/

/-- `pyproj.Transformer.from_crs` + per-row transform, modelled by an
oracle: `none` stands for a `pyproj.exceptions.CRSError` on an
unresolvable/malformed CRS; a returned function stands for
`transformer.transform` in `always_xy=True` mode, producing `(lon,
lat)`. -/
abbrev TransformerOracle := String → String → Option (ℚ → ℚ → ℚ × ℚ)

/-- `transform_coordinates(data, from_crs, to_crs, x_col, y_col)`:
creates the transformer (raising on a bad CRS before any row is
touched), maps every row's `(x, y)` to `(lat, lon)` (the `convert`
helper swaps the transformer's `(lon, lat)` output), and assigns the
`Latitude` and `Longitude` columns. -/
def transformCoordinates (tr : TransformerOracle) (data : Dataset)
    (fromCrs toCrs xCol yCol : String) : Except PErr Dataset :=
  match tr fromCrs toCrs with
  | none => Except.error (PErr.crsError fromCrs)
  | some f =>
    let xs := getColVals data xCol
    let ys := getColVals data yCol
    let pairs := (xs.zip ys).map (fun p =>
      let q := f (valNum p.1) (valNum p.2)
      (q.2, q.1))
    let data := setCol data "Latitude" (pairs.map (fun p => Val.num p.1))
    let data := setCol data "Longitude" (pairs.map (fun p => Val.num p.2))
    Except.ok data

/-! ## Terrain classification helpers (model.py lines 113-127) -/

/-- `np.arctan2` on one pair of gradient cells, via an oracle `at2` for
the transcendental function (non-finite operands give NaN). -/
def aspectVal (at2 : ℚ → ℚ → ℚ) (a b : Val) : Val :=
  match vnum a, vnum b with
  | some q1, some q2 => Val.num (at2 q1 q2)
  | _, _ => Val.nf

/-- `KMeans(n_clusters, random_state, n_init=10).fit_predict(features)`
as an oracle: feature rows, cluster count, `random_state` (the code
passes the fixed seed 42), and the ambient RNG state consumed only when
`random_state is None`. -/
abbrev KMeansOracle := List (ℚ × ℚ) → Nat → Option Nat → Nat → List Nat

/-- `.fillna(0)` on one cell (NaN → 0). -/
def fillna0 (v : Val) : Val :=
  match v with
  | Val.nf => Val.num 0
  | v => v

/-- `data[['slope', 'Elevation']].fillna(0)` as feature rows. -/
def featuresOf (slope elev : List Val) : List (ℚ × ℚ) :=
  (slope.zip elev).map (fun p => (valNum (fillna0 p.1), valNum (fillna0 p.2)))

/-- Distinct values of the cluster column (order irrelevant: sorted next). -/
def uniqueIds : List Nat → List Nat
  | [] => []
  | c :: l => if c ∈ l then uniqueIds l else c :: uniqueIds l

/-- `data.groupby('cluster')['Elevation'].mean()` for one cluster id:
pandas mean skips NaN cells. -/
def clusterMean (elev : List Val) (assign : List Nat) (c : Nat) : ℚ :=
  let vals := ((assign.zip elev).filter (fun p => p.1 = c)).filterMap (fun p => vnum p.2)
  vals.sum / vals.length

/-- groupby keys: the distinct cluster ids, ascending. -/
def presentIds (assign : List Nat) : List Nat :=
  (uniqueIds assign).insertionSort (fun a b => a ≤ b)

/-- `cluster_means.sort_values().index.tolist()`: cluster ids sorted by
mean elevation, ascending. -/
def sortedClustersOf (elev : List Val) (assign : List Nat) : List Nat :=
  (presentIds assign).insertionSort
    (fun c1 c2 => clusterMean elev assign c1 ≤ clusterMean elev assign c2)

/-- `['Swale', 'Trench'] if n_clusters == 2 else [f'Zone {i+1}' ...]`. -/
def terrainLabels (n : Nat) : List String :=
  if n = 2 then ["Swale", "Trench"]
  else (List.range n).map (fun i => "Zone " ++ toString (i + 1))

/-- `cluster_to_terrain[c]` via
`{sorted_clusters[i]: terrain_labels[min(i, len(terrain_labels)-1)]}`,
then `data['cluster'].map(...)` (a missing key maps to NaN). -/
def labelOfCluster (elev : List Val) (assign : List Nat) (n : Nat) (c : Nat) : Val :=
  match (sortedClustersOf elev assign).findIdx? (fun c2 => c2 = c) with
  | some i => Val.str ((terrainLabels n).getD (min i ((terrainLabels n).length - 1)) "")
  | none => Val.nf

/-- The whole `terrain_type` column. -/
def terrainTypeCol (elev : List Val) (assign : List Nat) (n : Nat) : List Val :=
  assign.map (labelOfCluster elev assign n)

/-! ## The pipeline (model.py process_csv_data) -/

/-- The coordinate-handling branch of `process_csv_data` (the
`if/elif` chain on `coord_type`). -/
def coordStage (tr : TransformerOracle) (coordType : String)
    (customEpsg : Option String) (utmZone : Option Int) (utmHemisphere : String)
    (data : Dataset) : Except PErr Dataset :=
  if coordType = "latlon" then
    match detectCoordinateSystem data with
    | Descriptor.latlon la lo =>
      let data := if la ≠ "Latitude" then setCol data "Latitude" (getColVals data la) else data
      let data := if lo ≠ "Longitude" then setCol data "Longitude" (getColVals data lo) else data
      Except.ok data
    | _ => Except.ok data
  else if coordType = "utm" then
    match detectCoordinateSystem data with
    | Descriptor.utm e n =>
      transformCoordinates tr data (resolveFromCrs customEpsg utmZone utmHemisphere)
        "EPSG:4326" e n
    | _ => Except.ok data
  else if coordType = "custom" && truthyOptStr customEpsg then
    -- x_col = detected.get('easting_col') or data.columns[0] (IndexError
    -- when the frame has no such column), same for y_col with columns[1]
    match (match detectCoordinateSystem data with
            | Descriptor.utm e _ => some e | _ => none).orElse
            (fun _ => (colNames data).get? 0),
          (match detectCoordinateSystem data with
            | Descriptor.utm _ n => some n | _ => none).orElse
            (fun _ => (colNames data).get? 1) with
    | some xCol, some yCol =>
      transformCoordinates tr data (customEpsg.getD "") "EPSG:4326" xCol yCol
    | _, _ => Except.error PErr.valueError
  else Except.ok data

/-- The slope computation of the classification block:
`np.gradient(Elevation, Distance)` when the distance column exists,
`np.gradient(Elevation)` otherwise. -/
def slopeOf (data : Dataset) : Except PErr (List Val) :=
  if hasCol data "Distance (m)"
  then gradCoord (getColVals data "Elevation") (getColVals data "Distance (m)")
  else gradUniform (getColVals data "Elevation")

/-- The aspect block: the Python loop over `data.columns` has no break,
so the LAST column whose lowercased name is easting/east (resp.
northing/north — note: not the single-letter patterns) wins; when both
exist, `aspect = arctan2(gradient(northing), gradient(easting))`. -/
def aspectStage (at2 : ℚ → ℚ → ℚ) (data : Dataset) : Except PErr Dataset :=
  match ((colNames data).filter
          (fun c => lowerStr c = "easting" ∨ lowerStr c = "east")).getLast?,
        ((colNames data).filter
          (fun c => lowerStr c = "northing" ∨ lowerStr c = "north")).getLast? with
  | some e, some n =>
    match gradUniform (getColVals data n), gradUniform (getColVals data e) with
    | Except.ok gn, Except.ok ge =>
      Except.ok (setCol data "aspect" ((gn.zip ge).map (fun p => aspectVal at2 p.1 p.2)))
    | Except.error e1, _ => Except.error e1
    | _, Except.error e1 => Except.error e1
  | _, _ => Except.ok data

/-- The KMeans block: `fit_predict` on `(slope, Elevation)` features
with NaN filled to 0, then the `cluster` and `terrain_type` columns.
The `fit_predict` preconditions that raise in sklearn (`n_clusters < 1`
or fewer samples than clusters) are checked explicitly. -/
def clusterStage (km : KMeansOracle) (rng nClusters : Nat) (data : Dataset) :
    Except PErr Dataset :=
  if nClusters < 1 ∨
      (featuresOf (getColVals data "slope") (getColVals data "Elevation")).length < nClusters
  then Except.error PErr.valueError
  else
    Except.ok (setCol
      (setCol data "cluster"
        (List.map (fun (c : Nat) => Val.num (c : ℚ))
          (km (featuresOf (getColVals data "slope") (getColVals data "Elevation"))
            nClusters (some 42) rng)))
      "terrain_type"
      (terrainTypeCol (getColVals data "Elevation")
        (km (featuresOf (getColVals data "slope") (getColVals data "Elevation"))
          nClusters (some 42) rng)
        nClusters))

/-- The terrain-classification block of `process_csv_data`
(`if 'Elevation' in data.columns:`): slope, optional aspect, KMeans
clustering and labelling. -/
def classifyStage (at2 : ℚ → ℚ → ℚ) (km : KMeansOracle) (rng : Nat)
    (nClusters : Nat) (data : Dataset) : Except PErr Dataset :=
  if hasCol data "Elevation" then
    match slopeOf data with
    | Except.error e => Except.error e
    | Except.ok slope =>
      match aspectStage at2 (setCol data "slope" slope) with
      | Except.error e => Except.error e
      | Except.ok d2 => clusterStage km rng nClusters d2
  else Except.ok data

/-- `process_csv_data` on the already-copied frame: detect (or use the
given mode), coordinate branch, distance epsilon replacement,
classification. -/
def processCore (tr : TransformerOracle) (at2 : ℚ → ℚ → ℚ) (km : KMeansOracle)
    (rng : Nat) (coordinateSystem : String) (utmZone : Option Int)
    (utmHemisphere : String) (customEpsg : Option String) (nClusters : Nat)
    (data : Dataset) : Except PErr Dataset := do
  let coordType := if coordinateSystem = "auto"
    then descType (detectCoordinateSystem data) else coordinateSystem
  let data ← coordStage tr coordType customEpsg utmZone utmHemisphere data
  let data := distanceStage data
  classifyStage at2 km rng nClusters data

/-- `process_csv_data` seen from the caller's heap of DataFrame objects
(references are list indices).  Its first statement
`data = data.copy()` allocates a fresh object; every later statement of
the function writes through that fresh reference only, so the caller's
object is never written.  On an exception the partially

mutated copy is unreachable and the caller sees no result. -/
def processCsvDataHeap (tr : TransformerOracle) (at2 : ℚ → ℚ → ℚ)
    (km : KMeansOracle) (rng : Nat) (coordinateSystem : String)
    (utmZone : Option Int) (utmHemisphere : String) (customEpsg : Option String)
    (nClusters : Nat) (heap : List Dataset) (r : Nat) :
    List Dataset × Except PErr Nat :=
  let data := heap.getD r []
  match processCore tr at2 km rng coordinateSystem utmZone utmHemisphere
      customEpsg nClusters data with
  | Except.ok d => (heap ++ [d], Except.ok heap.length)
  | Except.error e => (heap, Except.error e)

/-! ## Helper lemmas -/

theorem mem_uniqueIds {a : Nat} : ∀ {l : List Nat}, a ∈ uniqueIds l ↔ a ∈ l := by
  intro l
  induction l with
  | nil => simp [uniqueIds]
  | cons c l ih =>
    by_cases hc : c ∈ l
    · simp only [uniqueIds, if_pos hc, ih, List.mem_cons]
      constructor
      · exact Or.inr
      · rintro (rfl | h)
        · exact hc
        · exact h
    · simp only [uniqueIds, if_neg hc, List.mem_cons, ih]

theorem uniqueIds_nodup : ∀ l : List Nat, (uniqueIds l).Nodup := by
  intro l
  induction l with
  | nil => simp [uniqueIds]
  | cons c l ih =>
    by_cases hc : c ∈ l
    · simpa [uniqueIds, if_pos hc] using ih
    · simp only [uniqueIds, if_neg hc]
      exact List.Nodup.cons (fun h => hc (mem_uniqueIds.mp h)) ih

theorem presentIds_nodup (assign : List Nat) : (presentIds assign).Nodup :=
  ((List.perm_insertionSort _ (uniqueIds assign)).symm.nodup (uniqueIds_nodup assign))

theorem sortedClustersOf_nodup (elev : List Val) (assign : List Nat) :
    (sortedClustersOf elev assign).Nodup :=
  (List.perm_insertionSort _ (presentIds assign)).symm.nodup (presentIds_nodup assign)

theorem findIdx?_of_nodup {L : List Nat} (hN : L.Nodup) {i c : Nat}
    (h : L[i]? = some c) : L.findIdx? (fun x => x = c) = some i := by
  rcases List.getElem?_eq_some.mp h with ⟨hi, hv⟩
  refine List.findIdx?_eq_some_iff_getElem.mpr ⟨hi, by simp [hv], ?_⟩
  intro j hji
  have hj : j < L.length := lt_trans hji hi
  simp only [decide_eq_true_eq]
  intro hEq
  have : j = i := by
    have := (List.Nodup.getElem_inj_iff hN).mp (hEq.trans hv.symm)
    exact this
  omega

theorem sortedClustersOf_pair (elev : List Val) (assign : List Nat) (a b : Nat)
    (hp : presentIds assign = [a, b])
    (hm : clusterMean elev assign a < clusterMean elev assign b) :
    sortedClustersOf elev assign = [a, b] := by
  unfold sortedClustersOf
  rw [hp]
  simp [List.insertionSort, List.orderedInsert, hm.le]

/-! ## C1 -/

/-- **C1**: with `n_clusters = 2` and two clusters present, every row of
the cluster with the (strictly) lower mean elevation is labelled
`"Swale"` and every row of the other cluster `"Trench"`; with any other
`n_clusters`, a row of the cluster at position `i` of the
sorted-by-mean cluster list is labelled `"Zone i+1"`, and that list is
sorted by ascending mean elevation. -/
theorem c1_label_assignment :
    (∀ (elev : List Val) (assign : List Nat) (a b i : Nat),
      presentIds assign = [a, b] →
      clusterMean elev assign a < clusterMean elev assign b →
      ((assign[i]? = some a →
        (terrainTypeCol elev assign 2)[i]? = some (Val.str "Swale")) ∧
       (assign[i]? = some b →
        (terrainTypeCol elev assign 2)[i]? = some (Val.str "Trench")))) ∧
    (∀ (elev : List Val) (assign : List Nat) (n i j c : Nat),
      n ≠ 2 →
      (sortedClustersOf elev assign).length ≤ n →
      (sortedClustersOf elev assign)[i]? = some c →
      assign[j]? = some c →
      (terrainTypeCol elev assign n)[j]? =
        some (Val.str ("Zone " ++ toString (i + 1)))) ∧
    (∀ (elev : List Val) (assign : List Nat),
      List.Sorted (fun c1 c2 => clusterMean elev assign c1 ≤ clusterMean elev assign c2)
        (sortedClustersOf elev assign)) := by
  refine ⟨?_, ?_, ?_⟩
  · intro elev assign a b i hp hm
    have hab : a ≠ b := by
      intro h
      rw [h] at hm
      exact lt_irrefl _ hm
    have hsort := sortedClustersOf_pair elev assign a b hp hm
    constructor
    · intro hrow
      unfold terrainTypeCol
      rw [List.getElem?_map, hrow]
      simp only [Option.map_some']
      congr 1
      unfold labelOfCluster
      rw [hsort]
      have hfind : List.findIdx? (fun c2 => c2 = a) [a, b] = some 0 := by
        simp [List.findIdx?_cons]
      rw [hfind]
      rfl
    · intro hrow
      unfold terrainTypeCol
      rw [List.getElem?_map, hrow]
      simp only [Option.map_some']
      congr 1
      unfold labelOfCluster
      rw [hsort]
      have hfind : List.findIdx? (fun c2 => c2 = b) [a, b] = some 1 := by
        simp [List.findIdx?_cons, List.findIdx?_succ, hab]
      rw [hfind]
      rfl
  · intro elev assign n i j c hn2 hlen hi hrow
    have hN := sortedClustersOf_nodup elev assign
    have hfind := findIdx?_of_nodup hN hi
    have hilen : i < (sortedClustersOf elev assign).length :=
      (List.getElem?_eq_some.mp hi).1
    have hi_n : i < n := lt_of_lt_of_le hilen hlen
    unfold terrainTypeCol
    rw [List.getElem?_map, hrow]
    simp only [Option.map_some']
    congr 1
    unfold labelOfCluster
    rw [hfind]
    show Val.str ((terrainLabels n).getD (min i ((terrainLabels n).length - 1)) "") = _
    have hlab : terrainLabels n = (List.range n).map (fun k => "Zone " ++ toString (k + 1)) := by
      unfold terrainLabels
      rw [if_neg hn2]
    have hlablen : (terrainLabels n).length = n := by
      rw [hlab]
      simp
    have hmin : min i ((terrainLabels n).length - 1) = i := by
      rw [hlablen]
      omega
    rw [hmin, hlab, List.getD_eq_getElem?_getD, List.getElem?_map]
    simp [List.getElem?_range, hi_n]
  · intro elev assign
    haveI : IsTotal Nat
        (fun c1 c2 => clusterMean elev assign c1 ≤ clusterMean elev assign c2) :=
      ⟨fun a b => le_total _ _⟩
    haveI : IsTrans Nat
        (fun c1 c2 => clusterMean elev assign c1 ≤ clusterMean elev assign c2) :=
      ⟨fun a b c h1 h2 => le_trans h1 h2⟩
    unfold sortedClustersOf
    exact List.sorted_insertionSort _ _

@[simp] theorem vnum_num (q : ℚ) : vnum (Val.num q) = some q := rfl

@[simp] theorem vnum_str (s : String) : vnum (Val.str s) = none := rfl

@[simp] theorem vnum_nf : vnum Val.nf = none := rfl

def elevW : List Val := [Val.num 10, Val.num 50]

/-- Witness for C1: two rows with elevations 10 and 50, assigned to
clusters 0 and 1. -/
theorem c1_label_assignment_witness :
    (presentIds [0, 1] = [0, 1] ∧
     clusterMean elevW [0, 1] 0 < clusterMean elevW [0, 1] 1 ∧
     (terrainTypeCol elevW [0, 1] 2)[0]? = some (Val.str "Swale") ∧
     (terrainTypeCol elevW [0, 1] 2)[1]? = some (Val.str "Trench")) ∧
    ((3 : Nat) ≠ 2 ∧
     (terrainTypeCol elevW [0, 1] 3)[1]? = some (Val.str "Zone 2")) := by
  have hp : presentIds [0, 1] = [0, 1] := by decide
  have hm : clusterMean elevW [0, 1] 0 < clusterMean elevW [0, 1] 1 := by
    norm_num [clusterMean, elevW, List.filterMap_cons, List.filterMap_nil]
  have hsort : sortedClustersOf elevW [0, 1] = [0, 1] :=
    sortedClustersOf_pair elevW [0, 1] 0 1 hp hm
  refine ⟨⟨hp, hm, ?_, ?_⟩, by decide, ?_⟩
  · exact (c1_label_assignment.1 elevW [0, 1] 0 1 0 hp hm).1 rfl
  · exact (c1_label_assignment.1 elevW [0, 1] 0 1 1 hp hm).2 rfl
  · have hz := c1_label_assignment.2.1 elevW [0, 1] 3 1 1 1 (by decide)
      (by rw [hsort]; decide) (by rw [hsort]; decide) rfl
    have h2 : ("Zone " ++ toString (1 + 1)) = "Zone 2" := by decide
    rw [h2] at hz
    exact hz

/-! ## C2 -/

/-- **C2**: whenever an Easting-pattern column and a Northing-pattern
column are both found (first matching pattern of each ordered list,
case-insensitively), detection returns type `utm` with exactly those two
columns bound, regardless of any latitude/longitude columns also
present (the lat/lon pattern lists are never consulted). -/
theorem c2_utm_priority (d : Dataset) (e n : String)
    (he : findPattern EASTING_PATTERNS (colNames d) = some e)
    (hn : findPattern NORTHING_PATTERNS (colNames d) = some n) :
    detectCoordinateSystem d = Descriptor.utm e n := by
  unfold detectCoordinateSystem
  rw [he, hn]

/-- Witness for C2: a dataset carrying both an Easting/Northing pair and
a Latitude/Longitude pair detects as `utm`. -/
def dsBothPairs : Dataset :=
  [("Easting", [Val.num 500000]), ("Northing", [Val.num 4649776]),
   ("Latitude", [Val.num 42]), ("Longitude", [Val.num 13])]

theorem c2_utm_priority_witness :
    findPattern EASTING_PATTERNS (colNames dsBothPairs) = some "Easting" ∧
    findPattern NORTHING_PATTERNS (colNames dsBothPairs) = some "Northing" ∧
    findPattern LAT_PATTERNS (colNames dsBothPairs) = some "Latitude" ∧
    findPattern LON_PATTERNS (colNames dsBothPairs) = some "Longitude" ∧
    detectCoordinateSystem dsBothPairs = Descriptor.utm "Easting" "Northing" :=
  ⟨by decide, by decide, by decide, by decide,
   c2_utm_priority dsBothPairs "Easting" "Northing" (by decide) (by decide)⟩

/-! ## C3 -/

/-- **C3**: when no Easting/Northing pair is found but a lat-pattern and
a lon-pattern column are found, detection returns `latlon` exactly when
every latitude value is in [-90, 90] and every longitude value is in
[-180, 180]; otherwise it returns `unknown`.  (Detection is a total
function: it never raises.) -/
theorem c3_latlon_validation (d : Dataset) (la lo : String)
    (hen : findPattern EASTING_PATTERNS (colNames d) = none ∨
           findPattern NORTHING_PATTERNS (colNames d) = none)
    (hla : findPattern LAT_PATTERNS (colNames d) = some la)
    (hlo : findPattern LON_PATTERNS (colNames d) = some lo) :
    (detectCoordinateSystem d = Descriptor.latlon la lo ↔
      ((getColVals d la).all (vBetween (-90) 90) = true ∧
       (getColVals d lo).all (vBetween (-180) 180) = true)) ∧
    (¬ ((getColVals d la).all (vBetween (-90) 90) = true ∧
        (getColVals d lo).all (vBetween (-180) 180) = true) →
      detectCoordinateSystem d = Descriptor.unknown) := by
  have hmain : detectCoordinateSystem d =
      (if (getColVals d la).all (vBetween (-90) 90) && (getColVals d lo).all (vBetween (-180) 180)
       then Descriptor.latlon la lo else Descriptor.unknown) := by
    unfold detectCoordinateSystem
    rcases hE : findPattern EASTING_PATTERNS (colNames d) with _ | e
    · rcases hN : findPattern NORTHING_PATTERNS (colNames d) with _ | n <;>
        rw [hla, hlo]
    · rcases hN : findPattern NORTHING_PATTERNS (colNames d) with _ | n
      · rw [hla, hlo]
      · rcases hen with h | h
        · rw [hE] at h
          exact Option.noConfusion h
        · rw [hN] at h
          exact Option.noConfusion h
  constructor
  · rw [hmain]
    by_cases hA : (getColVals d la).all (vBetween (-90) 90) = true <;>
      by_cases hB : (getColVals d lo).all (vBetween (-180) 180) = true <;>
      simp [hA, hB]
  · intro hnot
    rw [hmain]
    rcases not_and_or.mp hnot with h | h <;>
      simp [Bool.and_eq_true, h]

/-- Witness data for C3: in-range and out-of-range lat/lon datasets. -/
def dsLatLonGood : Dataset :=
  [("Lat", [Val.num 10]), ("Lon", [Val.num 20]), ("Elevation", [Val.num 5])]

def dsLatLonBad : Dataset :=
  [("Lat", [Val.num 200]), ("Lon", [Val.num 20])]

theorem c3_latlon_validation_witness :
    (findPattern EASTING_PATTERNS (colNames dsLatLonGood) = none ∧
     findPattern LAT_PATTERNS (colNames dsLatLonGood) = some "Lat" ∧
     findPattern LON_PATTERNS (colNames dsLatLonGood) = some "Lon" ∧
     detectCoordinateSystem dsLatLonGood = Descriptor.latlon "Lat" "Lon") ∧
    detectCoordinateSystem dsLatLonBad = Descriptor.unknown := by
  refine ⟨⟨by decide, by decide, by decide, ?_⟩, ?_⟩
  · exact (c3_latlon_validation dsLatLonGood "Lat" "Lon" (Or.inl (by decide))
      (by decide) (by decide)).1.mpr (by decide)
  · exact (c3_latlon_validation dsLatLonBad "Lat" "Lon" (Or.inl (by decide))
      (by decide) (by decide)).2 (by decide)

/-! ## Column-store lemmas -/

theorem find?_map_overwrite (name : String) (vals : List Val) :
    ∀ d : Dataset, hasCol d name = true →
      (d.map (fun c => if c.1 = name then (name, vals) else c)).find?
        (fun c => c.1 = name) = some (name, vals) := by
  intro d
  induction d with
  | nil => intro h; simp [hasCol] at h
  | cons c d ih =>
    intro h
    by_cases hc : c.1 = name
    · simp [List.find?_cons, hc]
    · have h' : hasCol d name = true := by
        simp only [hasCol, List.any_cons, Bool.or_eq_true, decide_eq_true_eq] at h
        rcases h with h | h
        · exact absurd h hc
        · simpa [hasCol] using h
      simp [List.find?_cons, hc, ih h']

theorem getColVals_setCol_self (d : Dataset) (name : String) (vals : List Val) :
    getColVals (setCol d name vals) name = vals := by
  unfold setCol
  by_cases h : hasCol d name = true
  · rw [if_pos h]
    unfold getColVals
    rw [find?_map_overwrite name vals d h]
  · rw [if_neg h]
    unfold getColVals
    have hnone : d.find? (fun c => c.1 = name) = none := by
      rw [List.find?_eq_none]
      intro c hc
      simp only [decide_eq_true_eq]
      intro hceq
      have : hasCol d name = true := by
        simp only [hasCol, List.any_eq_true]
        exact ⟨c, hc, by simp [hceq]⟩
      exact h this
    rw [List.find?_append, hnone]
    simp [List.find?_cons]

theorem getColVals_setCol_ne (d : Dataset) (name m : String) (vals : List Val)
    (hne : m ≠ name) : getColVals (setCol d name vals) m = getColVals d m := by
  unfold setCol
  by_cases h : hasCol d name = true
  · rw [if_pos h]
    unfold getColVals
    have : ∀ d' : Dataset,
        (d'.map (fun c => if c.1 = name then (name, vals) else c)).find?
          (fun c => c.1 = m) = d'.find? (fun c => c.1 = m) := by
      intro d'
      induction d' with
      | nil => rfl
      | cons c d' ih =>
        rw [List.map_cons, List.find?_cons, List.find?_cons]
        by_cases hc : c.1 = name
        · rw [if_pos hc]
          have h1 : (decide ((name, vals).1 = m)) = false := by
            simp only [decide_eq_false_iff_not]
            exact fun hh => hne hh.symm
          have h2 : (decide (c.1 = m)) = false := by
            simp only [decide_eq_false_iff_not]
            rw [hc]
            exact fun hh => hne hh.symm
          rw [h1, h2]
          exact ih
        · rw [if_neg hc]
          by_cases hm : c.1 = m
          · rw [decide_eq_true hm]
          · rw [decide_eq_false hm]
            exact ih
    rw [this]
  · rw [if_neg h]
    unfold getColVals
    rw [List.find?_append]
    have : List.find? (fun c => c.1 = m) [(name, vals)] = none := by
      simp [List.find?_cons, Ne.symm hne]
    rw [this]
    cases d.find? (fun c => c.1 = m) <;> rfl

theorem hasCol_setCol_mono (d : Dataset) (name m : String) (vals : List Val)
    (h : hasCol d m = true) : hasCol (setCol d name vals) m = true := by
  unfold setCol
  by_cases hh : hasCol d name = true
  · rw [if_pos hh]
    simp only [hasCol, List.any_eq_true] at h ⊢
    rcases h with ⟨c, hc, hcm⟩
    refine ⟨if c.1 = name then (name, vals) else c, List.mem_map_of_mem _ hc, ?_⟩
    by_cases hcn : c.1 = name
    · simp only [decide_eq_true_eq] at hcm
      simp [hcn, hcm, hcn ▸ hcm]
    · simpa [hcn] using hcm
  · rw [if_neg hh]
    simp only [hasCol, List.any_eq_true] at h ⊢
    rcases h with ⟨c, hc, hcm⟩
    exact ⟨c, List.mem_append_left _ hc, hcm⟩

theorem colNames_setCol (d : Dataset) (name : String) (vals : List Val) :
    ∃ rest, colNames (setCol d name vals) = colNames d ++ rest := by
  unfold setCol
  by_cases h : hasCol d name = true
  · rw [if_pos h]
    refine ⟨[], ?_⟩
    rw [List.append_nil]
    unfold colNames
    rw [List.map_map]
    apply List.map_congr_left
    intro c _
    by_cases hc : c.1 = name
    · simp [hc]
    · simp [hc]
  · rw [if_neg h]
    exact ⟨[name], by simp [colNames]⟩

/-! ## Concrete oracles for closed evaluations -/

/-- A transformer oracle that resolves every CRS (identity planar map). -/
def trW : TransformerOracle := fun _ _ => some (fun a b => (a, b))

/-- A transformer oracle on which every CRS is unresolvable. -/
def trNone : TransformerOracle := fun _ _ => none

/-- A deterministic KMeans oracle (round-robin assignment, RNG ignored). -/
def km0 : KMeansOracle := fun f k _ _ => (List.range f.length).map (fun i => i % k)

/-- A concrete arctan2 oracle. -/
def at0 : ℚ → ℚ → ℚ := fun _ _ => 0

/-! ## C6 -/

/-- **C6**: in `utm` mode the source CRS is resolved with priority
`custom_epsg` (when supplied, i.e. truthy) over `utm_zone` (zone `z`,
hemisphere `N` → `EPSG:{32600+z}`, `S` → `EPSG:{32700+z}`) over the
documented default `EPSG:32644`; and the `utm` branch of the pipeline
feeds exactly this resolved CRS to the transformer. -/
theorem c6_crs_resolution :
    (∀ (s : String) (uz : Option Int) (h : String),
      s ≠ "" → resolveFromCrs (some s) uz h = s) ∧
    (∀ (ce : Option String) (z : Int) (h : String),
      truthyOptStr ce = false → z ≠ 0 →
      resolveFromCrs ce (some z) h = get_utm_epsg_code z h) ∧
    (∀ z : Int,
      get_utm_epsg_code z "N" = "EPSG:" ++ toString (32600 + z) ∧
      get_utm_epsg_code z "S" = "EPSG:" ++ toString (32700 + z)) ∧
    (∀ (ce : Option String) (uz : Option Int) (h : String),
      truthyOptStr ce = false → truthyOptInt uz = false →
      resolveFromCrs ce uz h = "EPSG:32644") ∧
    (∀ (tr : TransformerOracle) (ce : Option String) (uz : Option Int)
       (h : String) (d : Dataset) (e n : String),
      detectCoordinateSystem d = Descriptor.utm e n →
      coordStage tr "utm" ce uz h d =
        transformCoordinates tr d (resolveFromCrs ce uz h) "EPSG:4326" e n) := by
  refine ⟨?_, ?_, ?_, ?_, ?_⟩
  · intro s uz h hs
    simp [resolveFromCrs, truthyOptStr, hs]
  · intro ce z h hce hz
    simp [resolveFromCrs, hce, truthyOptInt, hz]
  · intro z
    constructor
    · show (if upperStr "N" = "N" then _ else _) = _
      rw [if_pos (by decide)]
    · show (if upperStr "S" = "N" then _ else _) = _
      rw [if_neg (by decide)]
  · intro ce uz h hce huz
    simp [resolveFromCrs, hce, huz]
  · intro tr ce uz h d e n hdet
    unfold coordStage
    rw [if_neg (by decide), if_pos rfl, hdet]

/-- Witness for C6 at concrete configurations. -/
theorem c6_crs_resolution_witness :
    (("EPSG:7755" : String) ≠ "" ∧
      resolveFromCrs (some "EPSG:7755") (some 44) "N" = "EPSG:7755") ∧
    (truthyOptStr none = false ∧ ((44 : Int) ≠ 0) ∧
      resolveFromCrs none (some 44) "N" = get_utm_epsg_code 44 "N" ∧
      get_utm_epsg_code 44 "N" = "EPSG:" ++ toString ((32600 : Int) + 44) ∧
      get_utm_epsg_code 44 "S" = "EPSG:" ++ toString ((32700 : Int) + 44)) ∧
    (truthyOptInt none = false ∧ resolveFromCrs none none "N" = "EPSG:32644") ∧
    detectCoordinateSystem dsBothPairs = Descriptor.utm "Easting" "Northing" ∧
    coordStage trW "utm" none none "N" dsBothPairs =
      transformCoordinates trW dsBothPairs (resolveFromCrs none none "N")
        "EPSG:4326" "Easting" "Northing" := by
  refine ⟨⟨by decide, ?_⟩, ⟨rfl, by decide, ?_, ?_, ?_⟩, ⟨rfl, ?_⟩, ?_, ?_⟩
  · exact c6_crs_resolution.1 "EPSG:7755" (some 44) "N" (by decide)
  · exact c6_crs_resolution.2.1 none 44 "N" rfl (by decide)
  · exact (c6_crs_resolution.2.2.1 44).1
  · exact (c6_crs_resolution.2.2.1 44).2
  · exact c6_crs_resolution.2.2.2.1 none none "N" rfl rfl
  · decide
  · exact c6_crs_resolution.2.2.2.2 trW none none "N" dsBothPairs
      "Easting" "Northing" (by decide)

/-! ## C5 -/

def isUtm : Descriptor → Bool
  | Descriptor.utm _ _ => true
  | _ => false

/-- **C5** (amended): in `utm` mode, when detection finds no
Easting/Northing pair the pipeline does NOT fail — the coordinate stage
silently skips the transformation and returns the data unchanged; when
the pair is found but the reference-system identifier is unresolvable
(transformer construction fails, pyproj `CRSError`), the whole
operation aborts with that error and returns no partial result. -/
theorem c5_utm_error_handling :
    (∀ (tr : TransformerOracle) (ce : Option String) (uz : Option Int)
       (h : String) (d : Dataset),
      isUtm (detectCoordinateSystem d) = false →
      coordStage tr "utm" ce uz h d = Except.ok d) ∧
    (∀ (tr : TransformerOracle) (at2 : ℚ → ℚ → ℚ) (km : KMeansOracle)
       (rng : Nat) (ce : Option String) (uz : Option Int) (h : String)
       (k : Nat) (d : Dataset) (e n : String),
      detectCoordinateSystem d = Descriptor.utm e n →
      tr (resolveFromCrs ce uz h) "EPSG:4326" = none →
      processCore tr at2 km rng "utm" uz h ce k d =
        Except.error (PErr.crsError (resolveFromCrs ce uz h))) := by
  constructor
  · intro tr ce uz h d hno
    unfold coordStage
    rw [if_neg (by decide), if_pos rfl]
    cases hdet : detectCoordinateSystem d with
    | utm e n =>
      rw [hdet] at hno
      exact absurd hno (by simp [isUtm])
    | latlon la lo => rfl
    | unknown => rfl
  · intro tr at2 km rng ce uz h k d e n hdet htr
    have hcs : coordStage tr "utm" ce uz h d =
        Except.error (PErr.crsError (resolveFromCrs ce uz h)) := by
      unfold coordStage
      rw [if_neg (by decide), if_pos rfl, hdet]
      unfold transformCoordinates
      rw [htr]
    simp only [processCore]
    rw [if_neg (by decide), hcs]
    rfl

/-- Counterexample to C5 as stated: in `utm` mode on a dataset with no
planar columns (and an oracle on which every CRS is unresolvable), the
pipeline raises nothing at all — it returns the input unchanged instead
of failing with a schema error. -/
def dsNoCoords : Dataset := [("A", [Val.num 1]), ("B", [Val.num 2])]

theorem c5_counterexample :
    processCore trNone at0 km0 0 "utm" none "N" none 2 dsNoCoords =
      Except.ok dsNoCoords := rfl

/-- Witness for C5 (amended). -/
theorem c5_utm_error_handling_witness :
    (isUtm (detectCoordinateSystem dsNoCoords) = false ∧
      coordStage trNone "utm" none none "N" dsNoCoords = Except.ok dsNoCoords) ∧
    (detectCoordinateSystem dsBothPairs = Descriptor.utm "Easting" "Northing" ∧
      trNone (resolveFromCrs none none "N") "EPSG:4326" = none ∧
      processCore trNone at0 km0 0 "utm" none "N" none 2 dsBothPairs =
        Except.error (PErr.crsError (resolveFromCrs none none "N"))) :=
  ⟨⟨by decide, c5_utm_error_handling.1 trNone none none "N" dsNoCoords (by decide)⟩,
   ⟨by decide, rfl,
    c5_utm_error_handling.2 trNone at0 km0 0 none none "N" 2 dsBothPairs
      "Easting" "Northing" (by decide) rfl⟩⟩

/-! ## C7 -/

/-- **C7** (amended): with `coordinate_system = 'custom'` and no truthy
`custom_epsg`, the absence of a reference-system identifier is NOT
surfaced as an error — the coordinate stage silently skips the
transformation and returns the data unchanged.  (Detection never
returns a `custom` descriptor, so only the explicit mode arises.) -/
theorem c7_custom_epsg_missing_skips :
    ∀ (tr : TransformerOracle) (ce : Option String) (uz : Option Int)
      (h : String) (d : Dataset),
      truthyOptStr ce = false →
      coordStage tr "custom" ce uz h d = Except.ok d := by
  intro tr ce uz h d hce
  unfold coordStage
  rw [if_neg (by decide), if_neg (by decide)]
  rw [hce]
  simp

/-- Counterexample to C7 as stated: `custom` mode without `custom_epsg`
returns the data unchanged — no error is raised for the missing
identifier. -/
theorem c7_counterexample :
    processCore trNone at0 km0 0 "custom" none "N" none 2 dsNoCoords =
      Except.ok dsNoCoords := rfl

/-- Witness for C7 (amended). -/
theorem c7_custom_epsg_missing_skips_witness :
    truthyOptStr none = false ∧
    coordStage trW "custom" none none "N" dsBothPairs = Except.ok dsBothPairs :=
  ⟨rfl, c7_custom_epsg_missing_skips trW none none "N" dsBothPairs rfl⟩

/-! ## C8 -/

/-- **C8**: the pipeline is deterministic across runs.  The KMeans call
passes the fixed seed `random_state=42` (model.py line 114), so provided
the clustering library is deterministic under a fixed seed (sklearn's
documented contract, the `hdet` hypothesis), two runs on identical
input with different ambient RNG states produce identical results —
in particular identical `terrain_type` per row. -/
theorem c8_determinism (tr : TransformerOracle) (at2 : ℚ → ℚ → ℚ)
    (km : KMeansOracle)
    (hdet : ∀ f k s r1 r2, km f k (some s) r1 = km f k (some s) r2)
    (r1 r2 : Nat) (cs : String) (uz : Option Int) (h : String)
    (ce : Option String) (n : Nat) (d : Dataset) :
    processCore tr at2 km r1 cs uz h ce n d =
      processCore tr at2 km r2 cs uz h ce n d := by
  have hkm : ∀ f k, km f k (some 42) r1 = km f k (some 42) r2 :=
    fun f k => hdet f k 42 r1 r2
  simp only [processCore, classifyStage, clusterStage, hkm]

/-- Witness for C8: the round-robin oracle ignores the RNG, and two runs
with RNG states 3 and 7 coincide. -/
theorem c8_determinism_witness :
    (∀ f k s r1 r2, km0 f k (some s) r1 = km0 f k (some s) r2) ∧
    processCore trW at0 km0 3 "auto" none "N" none 2 dsLatLonGood =
      processCore trW at0 km0 7 "auto" none "N" none 2 dsLatLonGood :=
  ⟨fun _ _ _ _ _ => rfl,
   c8_determinism trW at0 km0 (fun _ _ _ _ _ => rfl) 3 7 "auto" none "N" none
     2 dsLatLonGood⟩

/-! ## C10 -/

/-- **C10**: `process_csv_data` works on a copy (`data = data.copy()` is
its first statement, and every subsequent write goes through the fresh
object), so the caller's DataFrame — any previously existing heap
reference — is unchanged after the call, whether it returns or raises. -/
theorem c10_caller_frame (tr : TransformerOracle) (at2 : ℚ → ℚ → ℚ)
    (km : KMeansOracle) (rng : Nat) (cs : String) (uz : Option Int)
    (h : String) (ce : Option String) (n : Nat) (heap : List Dataset)
    (r i : Nat) (hi : i < heap.length) :
    ((processCsvDataHeap tr at2 km rng cs uz h ce n heap r).1).getD i [] =
      heap.getD i [] := by
  simp only [processCsvDataHeap]
  cases hres : processCore tr at2 km rng cs uz h ce n (heap.getD r []) with
  | ok d' =>
    simp only
    exact List.getD_append _ _ _ _ hi
  | error e => rfl

/-- Witness for C10 on a one-object heap. -/
theorem c10_caller_frame_witness :
    (0 : Nat) < [dsNoCoords].length ∧
    ((processCsvDataHeap trNone at0 km0 0 "unknown" none "N" none 2
        [dsNoCoords] 0).1).getD 0 [] = [dsNoCoords].getD 0 [] :=
  ⟨by decide,
   c10_caller_frame trNone at0 km0 0 "unknown" none "N" none 2 [dsNoCoords]
     0 0 (by decide)⟩

/-! ## C4 helper lemmas -/

theorem vnum_getD_eq {l : List Val} (h : ∀ v ∈ l, (vnum v).isSome = true)
    {i : Nat} (hi : i < l.length) :
    vnum (l.getD i Val.nf) = some (valNum (l.getD i Val.nf)) := by
  have hm : l.getD i Val.nf ∈ l := by
    rw [List.getD_eq_getElem l Val.nf hi]
    exact List.getElem_mem hi
  have hs := h _ hm
  cases hv : vnum (l.getD i Val.nf) with
  | none => rw [hv] at hs; cases hs
  | some q =>
    unfold valNum
    rw [hv]
    rfl

theorem chain'_consecutive {x : List Val}
    (hchain : List.Chain' (fun a b => valNum a < valNum b) x)
    {i : Nat} (hi : i + 1 < x.length) :
    valNum (x.getD i Val.nf) < valNum (x.getD (i + 1) Val.nf) := by
  have h := List.chain'_iff_get.mp hchain i (by omega)
  rw [List.getD_eq_getElem x Val.nf (by omega), List.getD_eq_getElem x Val.nf hi]
  simpa [List.get_eq_getElem] using h

theorem replaceZeros_numeric {l : List Val} (h : ∀ v ∈ l, (vnum v).isSome = true) :
    ∀ v ∈ replaceZeros l, (vnum v).isSome = true := by
  intro v hv
  rcases List.mem_map.mp hv with ⟨u, hu, rfl⟩
  unfold zeroEps
  by_cases h0 : u = Val.num 0
  · rw [if_pos h0]
    rfl
  · rw [if_neg h0]
    exact h u hu

theorem replaceZeros_length (l : List Val) : (replaceZeros l).length = l.length :=
  List.length_map l zeroEps

theorem gradCoordAt_isSome (f x : List Val)
    (hf : ∀ v ∈ f, (vnum v).isSome = true)
    (hx : ∀ v ∈ x, (vnum v).isSome = true)
    (hlen : 2 ≤ f.length) (hxl : x.length = f.length)
    (hchain : List.Chain' (fun a b => valNum a < valNum b) x)
    (i : Nat) (hi : i < f.length) :
    (gradCoordAt f x i).isSome = true := by
  unfold gradCoordAt
  by_cases h0 : i = 0
  · rw [if_pos h0,
      vnum_getD_eq hf (show 1 < f.length by omega),
      vnum_getD_eq hf (show 0 < f.length by omega),
      vnum_getD_eq hx (show 1 < x.length by omega),
      vnum_getD_eq hx (show 0 < x.length by omega)]
    have hlt := chain'_consecutive hchain (show 0 + 1 < x.length by omega)
    rw [show (0 : Nat) + 1 = 1 from rfl] at hlt
    show (if valNum (x.getD 1 Val.nf) - valNum (x.getD 0 Val.nf) = 0 then none
      else some _).isSome = true
    rw [if_neg (sub_ne_zero_of_ne (ne_of_gt hlt))]
    rfl
  · by_cases hL : i = f.length - 1
    · rw [if_neg h0, if_pos hL,
        vnum_getD_eq hf (show f.length - 1 < f.length by omega),
        vnum_getD_eq hf (show f.length - 2 < f.length by omega),
        vnum_getD_eq hx (show x.length - 1 < x.length by omega),
        vnum_getD_eq hx (show x.length - 2 < x.length by omega)]
      have hlt := chain'_consecutive hchain
        (show (x.length - 2) + 1 < x.length by omega)
      rw [show x.length - 2 + 1 = x.length - 1 by omega] at hlt
      show (if valNum (x.getD (x.length - 1) Val.nf) -
            valNum (x.getD (x.length - 2) Val.nf) = 0 then none
        else some _).isSome = true
      rw [if_neg (sub_ne_zero_of_ne (ne_of_gt hlt))]
      rfl
    · rw [if_neg h0, if_neg hL,
        vnum_getD_eq hf (show i - 1 < f.length by omega),
        vnum_getD_eq hf hi,
        vnum_getD_eq hf (show i + 1 < f.length by omega),
        vnum_getD_eq hx (show i - 1 < x.length by omega),
        vnum_getD_eq hx (show i < x.length by omega),
        vnum_getD_eq hx (show i + 1 < x.length by omega)]
      have hlt1 := chain'_consecutive hchain (show (i - 1) + 1 < x.length by omega)
      rw [show i - 1 + 1 = i by omega] at hlt1
      have hlt2 := chain'_consecutive hchain (show i + 1 < x.length by omega)
      have hdx1 : (0 : ℚ) < valNum (x.getD i Val.nf) - valNum (x.getD (i - 1) Val.nf) :=
        sub_pos.mpr hlt1
      have hdx2 : (0 : ℚ) < valNum (x.getD (i + 1) Val.nf) - valNum (x.getD i Val.nf) :=
        sub_pos.mpr hlt2
      show (if _ ∨ _ ∨ _ then none else some _).isSome = true
      rw [if_neg ?_]
      · rfl
      · rintro (hc | hc | hc)
        · exact absurd hc (ne_of_gt (mul_pos hdx1 (add_pos hdx1 hdx2)))
        · exact absurd hc (ne_of_gt (mul_pos hdx1 hdx2))
        · exact absurd hc (ne_of_gt (mul_pos hdx2 (add_pos hdx1 hdx2)))

/-! ## C4 -/

/-- **C4** (amended): every zero-valued `Distance (m)` entry is replaced
by the epsilon `1e-6` before differentiation (so no zero remains), and —
provided the dataset has at least two rows, elevations and distances are
numeric, and the post-replacement distances are strictly increasing —
the slope computation does not raise and every slope value is finite.
(Without the monotonicity proviso the claim fails: see the
counterexample with two equal distances, where the epsilon replacement
does not prevent a zero denominator.) -/
theorem c4_distance_epsilon :
    (∀ d : Dataset, hasCol d "Distance (m)" = true →
      getColVals (distanceStage d) "Distance (m)" =
        replaceZeros (getColVals d "Distance (m)")) ∧
    (∀ (l : List Val) (v : Val), v ∈ replaceZeros l → v ≠ Val.num 0) ∧
    (∀ elev dist : List Val,
      (∀ v ∈ elev, (vnum v).isSome = true) →
      (∀ v ∈ dist, (vnum v).isSome = true) →
      2 ≤ elev.length → dist.length = elev.length →
      List.Chain' (fun a b => valNum a < valNum b) (replaceZeros dist) →
      ∃ out, gradCoord elev (replaceZeros dist) = Except.ok out ∧
        ∀ v ∈ out, ∃ q, v = Val.num q) := by
  refine ⟨?_, ?_, ?_⟩
  · intro d hd
    unfold distanceStage
    rw [if_pos hd, getColVals_setCol_self]
  · intro l v hv
    rcases List.mem_map.mp hv with ⟨u, hu, rfl⟩
    unfold zeroEps
    by_cases h0 : u = Val.num 0
    · rw [if_pos h0]
      intro hcontra
      have h1 : (1 : ℚ) / 1000000 = 0 := by
        injection hcontra
      norm_num at h1
    · rw [if_neg h0]
      exact h0
  · intro elev dist helev hdist hlen hxl hchain
    have hxnum := replaceZeros_numeric hdist
    have hxlen : (replaceZeros dist).length = elev.length := by
      rw [replaceZeros_length]
      exact hxl
    refine ⟨(List.range elev.length).map
      (fun i => o2v (gradCoordAt elev (replaceZeros dist) i)), ?_, ?_⟩
    · unfold gradCoord
      rw [if_neg ?_]
      · push_neg
        exact ⟨by omega, hxlen⟩
    · intro v hv
      rcases List.mem_map.mp hv with ⟨i, hi, rfl⟩
      have hi' : i < elev.length := List.mem_range.mp hi
      have hs := gradCoordAt_isSome elev (replaceZeros dist) helev hxnum hlen
        hxlen hchain i hi'
      cases hg : gradCoordAt elev (replaceZeros dist) i with
      | none => rw [hg] at hs; cases hs
      | some q => exact ⟨q, rfl⟩

def elevC : List Val := [Val.num 0, Val.num 1]

def distC : List Val := [Val.num 0, Val.num 5]

/-- Witness for C4 (amended): a survey whose distance column starts at
zero; after replacement the distances are strictly increasing, and the
slope is finite everywhere. -/
theorem c4_distance_epsilon_witness :
    ((∀ v ∈ elevC, (vnum v).isSome = true) ∧
     (∀ v ∈ distC, (vnum v).isSome = true) ∧
     2 ≤ elevC.length ∧ distC.length = elevC.length ∧
     List.Chain' (fun a b => valNum a < valNum b) (replaceZeros distC)) ∧
    (∃ out, gradCoord elevC (replaceZeros distC) = Except.ok out ∧
      ∀ v ∈ out, ∃ q, v = Val.num q) := by
  have hch : List.Chain' (fun a b => valNum a < valNum b) (replaceZeros distC) := by
    norm_num [replaceZeros, distC, zeroEps, List.chain'_cons, valNum, Val.num.injEq]
  exact ⟨⟨by decide, by decide, by decide, by decide, hch⟩,
    c4_distance_epsilon.2.2 elevC distC (by decide) (by decide) (by decide)
      (by decide) hch⟩

/-- Counterexample to C4 as stated: a dataset whose two distance entries
are both zero.  The zeros are replaced by `1e-6`, yet the differences
of the post-replacement distances vanish, so `np.gradient` divides by
zero and the slope is non-finite at the zero-distance positions — the
epsilon policy does not guarantee finiteness. -/
def dsZeroDist : Dataset :=
  [("Distance (m)", [Val.num 0, Val.num 0]), ("Elevation", [Val.num 0, Val.num 1])]

theorem c4_counterexample :
    getColVals dsZeroDist "Distance (m)" = [Val.num 0, Val.num 0] ∧
    hasCol dsZeroDist "Distance (m)" = true ∧
    getColVals (distanceStage dsZeroDist) "Distance (m)" =
      [Val.num (1 / 1000000), Val.num (1 / 1000000)] ∧
    gradCoord (getColVals (distanceStage dsZeroDist) "Elevation")
      (getColVals (distanceStage dsZeroDist) "Distance (m)") =
      Except.ok [Val.nf, Val.nf] := by
  refine ⟨rfl, rfl, rfl, ?_⟩
  show gradCoord [Val.num 0, Val.num 1] [Val.num (1 / 1000000), Val.num (1 / 1000000)] =
    Except.ok [Val.nf, Val.nf]
  norm_num [gradCoord, gradCoordAt, o2v, List.range_succ]

/-! ## C9 machinery -/

/-- The column names the pipeline itself writes (overwriting any
same-named input column): the transformation targets, the epsilon-
replaced distance column, and the derived feature/label columns. -/
def pipelineCols : List String :=
  ["Latitude", "Longitude", "Distance (m)", "slope", "aspect", "cluster", "terrain_type"]

/-- Well-formedness: every column has the frame's row count. -/
def WF (d : Dataset) : Prop := ∀ c ∈ d, c.2.length = numRows d

/-- What one pipeline stage preserves: values of columns the pipeline
never writes, presence of every column, column order (new names only
appended), and — on a well-formed frame — the row count and
well-formedness. -/
def StagePreserves (d out : Dataset) : Prop :=
  (∀ m, m ∉ pipelineCols → getColVals out m = getColVals d m) ∧
  (∀ m, hasCol d m = true → hasCol out m = true) ∧
  (∃ rest, colNames out = colNames d ++ rest) ∧
  (WF d → numRows out = numRows d ∧ WF out)

theorem stagePreserves_refl (d : Dataset) : StagePreserves d d :=
  ⟨fun _ _ => rfl, fun _ h => h, ⟨[], (List.append_nil _).symm⟩,
   fun hwf => ⟨rfl, hwf⟩⟩

theorem stagePreserves_trans {d e f : Dataset}
    (h1 : StagePreserves d e) (h2 : StagePreserves e f) : StagePreserves d f := by
  obtain ⟨v1, p1, ⟨r1, n1⟩, w1⟩ := h1
  obtain ⟨v2, p2, ⟨r2, n2⟩, w2⟩ := h2
  refine ⟨fun m hm => (v2 m hm).trans (v1 m hm), fun m hm => p2 m (p1 m hm),
    ⟨r1 ++ r2, by rw [n2, n1, List.append_assoc]⟩, fun hwf => ?_⟩
  obtain ⟨ne1, nwf1⟩ := w1 hwf
  obtain ⟨ne2, nwf2⟩ := w2 nwf1
  exact ⟨ne2.trans ne1, nwf2⟩

theorem numRows_setCol (d : Dataset) (name : String) (vals : List Val)
    (h : vals.length = numRows d) : numRows (setCol d name vals) = numRows d := by
  unfold setCol
  by_cases hc : hasCol d name = true
  · rw [if_pos hc]
    cases d with
    | nil => rfl
    | cons c rest =>
      by_cases hn : c.1 = name
      · simp only [List.map_cons, if_pos hn, numRows]
        exact h
      · simp only [List.map_cons, if_neg hn, numRows]
  · rw [if_neg hc]
    cases d with
    | nil =>
      simp only [numRows] at h ⊢
      simpa using h
    | cons c rest => rfl

theorem wf_setCol {d : Dataset} (name : String) (vals : List Val)
    (hwf : WF d) (h : vals.length = numRows d) : WF (setCol d name vals) := by
  intro c hc
  rw [numRows_setCol d name vals h]
  unfold setCol at hc
  by_cases hcol : hasCol d name = true
  · rw [if_pos hcol] at hc
    rcases List.mem_map.mp hc with ⟨c0, hc0, rfl⟩
    by_cases hn : c0.1 = name
    · rw [if_pos hn]
      exact h
    · rw [if_neg hn]
      exact hwf c0 hc0
  · rw [if_neg hcol] at hc
    rcases List.mem_append.mp hc with hc' | hc'
    · exact hwf c hc'
    · rcases List.mem_singleton.mp hc' with rfl
      exact h

theorem stagePreserves_setCol (d : Dataset) (name : String) (vals : List Val)
    (hn : name ∈ pipelineCols) (hv : WF d → vals.length = numRows d) :
    StagePreserves d (setCol d name vals) := by
  refine ⟨fun m hm => getColVals_setCol_ne d name m vals ?_,
    fun m hm => hasCol_setCol_mono d name m vals hm,
    colNames_setCol d name vals, fun hwf => ?_⟩
  · intro heq
    exact hm (heq ▸ hn)
  · exact ⟨numRows_setCol d name vals (hv hwf), wf_setCol name vals hwf (hv hwf)⟩

theorem hasCol_of_mem_colNames {d : Dataset} {m : String}
    (h : m ∈ colNames d) : hasCol d m = true := by
  rcases List.mem_map.mp h with ⟨c, hc, rfl⟩
  simp only [hasCol, List.any_eq_true]
  exact ⟨c, hc, by simp⟩

theorem columnsLower_mem {cols : List String} {key c : String}
    (h : columnsLower cols key = some c) : c ∈ cols := by
  unfold columnsLower at h
  have hmem : c ∈ (cols.filter (fun c => lowerStr c = key)).getLast? :=
    Option.mem_def.mpr h
  obtain ⟨hne, rfl⟩ := List.mem_getLast?_eq_getLast hmem
  exact List.mem_of_mem_filter (List.getLast_mem hne)

theorem findPattern_mem {pats cols : List String} {c : String}
    (h : findPattern pats cols = some c) : c ∈ cols := by
  unfold findPattern at h
  induction pats with
  | nil => cases h
  | cons p pats ih =>
    rw [List.findSome?_cons] at h
    cases hc : columnsLower cols p with
    | some c' =>
      rw [hc] at h
      cases h
      exact columnsLower_mem hc
    | none =>
      rw [hc] at h
      exact ih h

theorem getColVals_length_of_has {d : Dataset} {m : String} (hwf : WF d)
    (hm : hasCol d m = true) : (getColVals d m).length = numRows d := by
  unfold getColVals
  cases hf : d.find? (fun c => c.1 = m) with
  | some c => exact hwf c (List.mem_of_find?_eq_some hf)
  | none =>
    exfalso
    simp only [hasCol, List.any_eq_true] at hm
    rcases hm with ⟨c, hc, hcm⟩
    have : (d.find? (fun c => c.1 = m)).isSome = true :=
      List.find?_isSome.mpr ⟨c, hc, hcm⟩
    rw [hf] at this
    cases this

theorem except_bind_ok {α β : Type} {x : Except PErr α} {f : α → Except PErr β}
    {b : β} (h : x.bind f = Except.ok b) :
    ∃ a, x = Except.ok a ∧ f a = Except.ok b := by
  cases x with
  | ok a => exact ⟨a, rfl, h⟩
  | error e => exact Except.noConfusion h

theorem gradCoord_ok_length {f x out : List Val}
    (h : gradCoord f x = Except.ok out) : out.length = f.length := by
  unfold gradCoord at h
  split at h
  · exact Except.noConfusion h
  · cases h
    simp

theorem gradUniform_ok_length {f out : List Val}
    (h : gradUniform f = Except.ok out) : out.length = f.length := by
  unfold gradUniform at h
  split at h
  · exact Except.noConfusion h
  · cases h
    simp

theorem hasCol_setCol_self (d : Dataset) (name : String) (vals : List Val) :
    hasCol (setCol d name vals) name = true := by
  unfold setCol
  by_cases hc : hasCol d name = true
  · rw [if_pos hc]
    simp only [hasCol, List.any_eq_true] at hc ⊢
    rcases hc with ⟨c, hcmem, hcn⟩
    refine ⟨if c.1 = name then (name, vals) else c, List.mem_map_of_mem _ hcmem, ?_⟩
    simp only [decide_eq_true_eq] at hcn
    simp [hcn]
  · rw [if_neg hc]
    simp [hasCol]

theorem stagePreserves_setCol2 (d : Dataset) (n1 n2 : String) (v1 v2 : List Val)
    (h1 : n1 ∈ pipelineCols) (h2 : n2 ∈ pipelineCols)
    (hl1 : WF d → v1.length = numRows d) (hl2 : WF d → v2.length = numRows d) :
    StagePreserves d (setCol (setCol d n1 v1) n2 v2) := by
  refine ⟨?_, ?_, ?_, ?_⟩
  · intro m hm
    rw [getColVals_setCol_ne _ _ _ _ (fun hh => hm (by rw [hh]; exact h2)),
      getColVals_setCol_ne _ _ _ _ (fun hh => hm (by rw [hh]; exact h1))]
  · intro m hm
    exact hasCol_setCol_mono _ _ _ _ (hasCol_setCol_mono _ _ _ _ hm)
  · obtain ⟨r1, e1⟩ := colNames_setCol d n1 v1
    obtain ⟨r2, e2⟩ := colNames_setCol (setCol d n1 v1) n2 v2
    exact ⟨r1 ++ r2, by rw [e2, e1, List.append_assoc]⟩
  · intro hwf
    have hL1 := hl1 hwf
    have hn1 := numRows_setCol d n1 v1 hL1
    have hwf1 := wf_setCol n1 v1 hwf hL1
    have hL2 : v2.length = numRows (setCol d n1 v1) := by rw [hn1]; exact hl2 hwf
    have hn2 := numRows_setCol (setCol d n1 v1) n2 v2 hL2
    exact ⟨hn2.trans hn1, wf_setCol n2 v2 hwf1 hL2⟩

theorem stagePreserves_transform {tr : TransformerOracle} {d : Dataset}
    {fromCrs toCrs xCol yCol : String} {out : Dataset}
    (hx : hasCol d xCol = true) (hy : hasCol d yCol = true)
    (h : transformCoordinates tr d fromCrs toCrs xCol yCol = Except.ok out) :
    StagePreserves d out := by
  unfold transformCoordinates at h
  cases htr : tr fromCrs toCrs with
  | none =>
    rw [htr] at h
    exact Except.noConfusion h
  | some f =>
    rw [htr] at h
    simp only [Except.ok.injEq] at h
    subst h
    apply stagePreserves_setCol2 d "Latitude" "Longitude" _ _ (by decide) (by decide) <;>
    · intro hwf
      rw [List.length_map, List.length_map, List.length_zip,
        getColVals_length_of_has hwf hx, getColVals_length_of_has hwf hy, min_self]

theorem stagePreserves_distanceStage (d : Dataset) :
    StagePreserves d (distanceStage d) := by
  unfold distanceStage
  by_cases hc : hasCol d "Distance (m)" = true
  · rw [if_pos hc]
    apply stagePreserves_setCol d _ _ (by decide)
    intro hwf
    rw [replaceZeros_length, getColVals_length_of_has hwf hc]
  · rw [if_neg hc]
    exact stagePreserves_refl d

theorem detect_utm_cols {d : Dataset} {e n : String}
    (h : detectCoordinateSystem d = Descriptor.utm e n) :
    hasCol d e = true ∧ hasCol d n = true := by
  unfold detectCoordinateSystem at h
  split at h
  · rename_i e' n' hE hN
    simp only [Descriptor.utm.injEq] at h
    obtain ⟨rfl, rfl⟩ := h
    exact ⟨hasCol_of_mem_colNames (findPattern_mem hE),
      hasCol_of_mem_colNames (findPattern_mem hN)⟩
  · split at h
    · split at h
      · exact Descriptor.noConfusion h
      · exact Descriptor.noConfusion h
    · exact Descriptor.noConfusion h

theorem detect_latlon_cols {d : Dataset} {la lo : String}
    (h : detectCoordinateSystem d = Descriptor.latlon la lo) :
    hasCol d la = true ∧ hasCol d lo = true := by
  unfold detectCoordinateSystem at h
  split at h
  · exact Descriptor.noConfusion h
  · split at h
    · rename_i hEN la' lo' hLA hLO
      split at h
      · simp only [Descriptor.latlon.injEq] at h
        obtain ⟨rfl, rfl⟩ := h
        exact ⟨hasCol_of_mem_colNames (findPattern_mem hLA),
          hasCol_of_mem_colNames (findPattern_mem hLO)⟩
      · exact Descriptor.noConfusion h
    · exact Descriptor.noConfusion h


theorem stagePreserves_coordStage {tr : TransformerOracle} {ct : String}
    {ce : Option String} {uz : Option Int} {hem : String} {d out : Dataset}
    (hok : coordStage tr ct ce uz hem d = Except.ok out) : StagePreserves d out := by
  unfold coordStage at hok
  by_cases h1 : ct = "latlon"
  · rw [if_pos h1] at hok
    cases hdet : detectCoordinateSystem d with
    | latlon la lo =>
      rw [hdet] at hok
      simp only [Except.ok.injEq] at hok
      subst hok
      obtain ⟨hla, hlo⟩ := detect_latlon_cols hdet
      have s1 : StagePreserves d
          (if la ≠ "Latitude" then setCol d "Latitude" (getColVals d la) else d) := by
        split
        · apply stagePreserves_setCol d _ _ (by decide)
          intro hwf
          exact getColVals_length_of_has hwf hla
        · exact stagePreserves_refl d
      have s2 : ∀ d1 : Dataset, hasCol d1 lo = true → StagePreserves d1
          (if lo ≠ "Longitude" then setCol d1 "Longitude" (getColVals d1 lo) else d1) := by
        intro d1 hlo1
        split
        · apply stagePreserves_setCol d1 _ _ (by decide)
          intro hwf1
          exact getColVals_length_of_has hwf1 hlo1
        · exact stagePreserves_refl d1
      exact stagePreserves_trans s1 (s2 _ (s1.2.1 lo hlo))
    | utm e n =>
      rw [hdet] at hok
      simp only [Except.ok.injEq] at hok
      subst hok
      exact stagePreserves_refl d
    | unknown =>
      rw [hdet] at hok
      simp only [Except.ok.injEq] at hok
      subst hok
      exact stagePreserves_refl d
  · rw [if_neg h1] at hok
    by_cases h2 : ct = "utm"
    · rw [if_pos h2] at hok
      cases hdet : detectCoordinateSystem d with
      | utm e n =>
        rw [hdet] at hok
        obtain ⟨he, hn⟩ := detect_utm_cols hdet
        exact stagePreserves_transform he hn hok
      | latlon la lo =>
        rw [hdet] at hok
        simp only [Except.ok.injEq] at hok
        subst hok
        exact stagePreserves_refl d
      | unknown =>
        rw [hdet] at hok
        simp only [Except.ok.injEq] at hok
        subst hok
        exact stagePreserves_refl d
    · rw [if_neg h2] at hok
      split at hok
      · split at hok
        · rename_i xCol yCol heq1 heq2
          have hxmem : hasCol d xCol = true := by
            cases hdet : detectCoordinateSystem d with
            | utm e n =>
              rw [hdet] at heq1
              obtain rfl : e = xCol := Option.some.inj heq1
              exact (detect_utm_cols hdet).1
            | latlon la lo =>
              rw [hdet] at heq1
              exact hasCol_of_mem_colNames (List.get?_mem heq1)
            | unknown =>
              rw [hdet] at heq1
              exact hasCol_of_mem_colNames (List.get?_mem heq1)
          have hymem : hasCol d yCol = true := by
            cases hdet : detectCoordinateSystem d with
            | utm e n =>
              rw [hdet] at heq2
              obtain rfl : n = yCol := Option.some.inj heq2
              exact (detect_utm_cols hdet).2
            | latlon la lo =>
              rw [hdet] at heq2
              exact hasCol_of_mem_colNames (List.get?_mem heq2)
            | unknown =>
              rw [hdet] at heq2
              exact hasCol_of_mem_colNames (List.get?_mem heq2)
          exact stagePreserves_transform hxmem hymem hok
        · exact Except.noConfusion hok
      · simp only [Except.ok.injEq] at hok
        subst hok
        exact stagePreserves_refl d

theorem getLast?_filter_mem {p : String → Bool} {cols : List String} {c : String}
    (h : (cols.filter p).getLast? = some c) : c ∈ cols := by
  have hmem : c ∈ (cols.filter p).getLast? := Option.mem_def.mpr h
  obtain ⟨hne, rfl⟩ := List.mem_getLast?_eq_getLast hmem
  exact List.mem_of_mem_filter (List.getLast_mem hne)

theorem slopeOf_ok_length {d : Dataset} {slope : List Val}
    (h : slopeOf d = Except.ok slope) :
    slope.length = (getColVals d "Elevation").length := by
  unfold slopeOf at h
  split at h
  · exact gradCoord_ok_length h
  · exact gradUniform_ok_length h

theorem stagePreserves_aspectStage {at2 : ℚ → ℚ → ℚ} {d1 out : Dataset}
    (hok : aspectStage at2 d1 = Except.ok out) : StagePreserves d1 out := by
  unfold aspectStage at hok
  split at hok
  · rename_i e n hE hN
    split at hok
    · rename_i gn ge hgn hge
      simp only [Except.ok.injEq] at hok
      subst hok
      apply stagePreserves_setCol d1 _ _ (by decide)
      intro hwf
      have hne : hasCol d1 n = true :=
        hasCol_of_mem_colNames (getLast?_filter_mem hN)
      have hee : hasCol d1 e = true :=
        hasCol_of_mem_colNames (getLast?_filter_mem hE)
      rw [List.length_map, List.length_zip, gradUniform_ok_length hgn,
        gradUniform_ok_length hge, getColVals_length_of_has hwf hne,
        getColVals_length_of_has hwf hee, min_self]
    · exact Except.noConfusion hok
    · exact Except.noConfusion hok
  · simp only [Except.ok.injEq] at hok
    subst hok
    exact stagePreserves_refl d1

theorem stagePreserves_clusterStage {km : KMeansOracle} {rng n : Nat}
    {d2 out : Dataset}
    (hkm : ∀ f k s r, (km f k s r).length = f.length)
    (hs : hasCol d2 "slope" = true) (hel : hasCol d2 "Elevation" = true)
    (hok : clusterStage km rng n d2 = Except.ok out) : StagePreserves d2 out := by
  unfold clusterStage at hok
  split at hok
  · exact Except.noConfusion hok
  · simp only [Except.ok.injEq] at hok
    subst hok
    have hfeats : WF d2 →
        (featuresOf (getColVals d2 "slope") (getColVals d2 "Elevation")).length =
          numRows d2 := by
      intro hwf
      unfold featuresOf
      rw [List.length_map, List.length_zip, getColVals_length_of_has hwf hs,
        getColVals_length_of_has hwf hel, min_self]
    apply stagePreserves_setCol2 d2 "cluster" "terrain_type" _ _ (by decide) (by decide)
    · intro hwf
      rw [List.length_map, hkm]
      exact hfeats hwf
    · intro hwf
      unfold terrainTypeCol
      rw [List.length_map, hkm]
      exact hfeats hwf

theorem stagePreserves_classifyStage {at2 : ℚ → ℚ → ℚ} {km : KMeansOracle}
    {rng n : Nat} {d out : Dataset}
    (hkm : ∀ f k s r, (km f k s r).length = f.length)
    (hok : classifyStage at2 km rng n d = Except.ok out) : StagePreserves d out := by
  unfold classifyStage at hok
  split at hok
  · rename_i hE
    split at hok
    · exact Except.noConfusion hok
    · rename_i slope hsl
      split at hok
      · exact Except.noConfusion hok
      · rename_i d2 ha
        have s1 : StagePreserves d (setCol d "slope" slope) := by
          apply stagePreserves_setCol d _ _ (by decide)
          intro hwf
          rw [slopeOf_ok_length hsl, getColVals_length_of_has hwf hE]
        have s2 := stagePreserves_aspectStage ha
        have s3 : StagePreserves d2 out := by
          refine stagePreserves_clusterStage hkm ?_ ?_ hok
          · exact s2.2.1 _ (hasCol_setCol_self d "slope" slope)
          · exact s2.2.1 _ (s1.2.1 _ hE)
        exact stagePreserves_trans s1 (stagePreserves_trans s2 s3)
  · simp only [Except.ok.injEq] at hok
    subst hok
    exact stagePreserves_refl d

/-- **C9** (amended): for every run of the pipeline that returns a
result, (1) every column whose name the pipeline never writes (i.e. not
`Latitude`, `Longitude`, `Distance (m)`, `slope`, `aspect`, `cluster`,
`terrain_type`) keeps exactly its input values, hence its rows in their
input order; (2) every input column is still present; (3) the input
column order is preserved and new columns are only appended; (4) on a
well-formed frame the row count is preserved and every output column has
that row count (no row added or dropped).  As stated, the claim is
false: the pipeline rewrites `Distance (m)` in place (zero entries
become `1e-6`), and it overwrites any input column named `Latitude`,
`Longitude`, `slope`, `aspect`, `cluster` or `terrain_type`. -/
theorem c9_row_column_preservation
    (tr : TransformerOracle) (at2 : ℚ → ℚ → ℚ) (km : KMeansOracle)
    (rng : Nat) (cs : String) (uz : Option Int) (hem : String)
    (ce : Option String) (n : Nat) (d out : Dataset)
    (hkm : ∀ f k s r, (km f k s r).length = f.length)
    (hok : processCore tr at2 km rng cs uz hem ce n d = Except.ok out) :
    (∀ m, m ∉ pipelineCols → getColVals out m = getColVals d m) ∧
    (∀ m, hasCol d m = true → hasCol out m = true) ∧
    (∃ rest, colNames out = colNames d ++ rest) ∧
    (WF d → numRows out = numRows d ∧ WF out) := by
  have hsp : StagePreserves d out := by
    simp only [processCore] at hok
    obtain ⟨d1, h1, h2⟩ := except_bind_ok hok
    exact stagePreserves_trans (stagePreserves_coordStage h1)
      (stagePreserves_trans (stagePreserves_distanceStage d1)
        (stagePreserves_classifyStage hkm h2))
  exact hsp

/-- Witness for C9 (amended) at a concrete dataset. -/
theorem c9_row_column_preservation_witness :
    (∀ f k s r, (km0 f k s r).length = f.length) ∧
    processCore trNone at0 km0 0 "unknown" none "N" none 2 dsNoCoords =
      Except.ok dsNoCoords ∧
    (("A" : String) ∉ pipelineCols ∧
      getColVals dsNoCoords "A" = getColVals dsNoCoords "A") ∧
    (WF dsNoCoords ∧ numRows dsNoCoords = numRows dsNoCoords ∧ WF dsNoCoords) := by
  have hkm : ∀ f k s r, (km0 f k s r).length = f.length := by
    intro f k s r
    simp [km0]
  have happ := c9_row_column_preservation trNone at0 km0 0 "unknown" none "N"
    none 2 dsNoCoords dsNoCoords hkm rfl
  have hwf : WF dsNoCoords := by
    intro c hc
    simp only [dsNoCoords, List.mem_cons, List.not_mem_nil, or_false] at hc
    rcases hc with rfl | rfl <;> rfl
  exact ⟨hkm, rfl, ⟨by decide, happ.1 "A" (by decide)⟩,
    hwf, (happ.2.2.2 hwf).1, (happ.2.2.2 hwf).2⟩

/-- Counterexample to C9 as stated: a dataset whose `Distance (m)`
column contains a zero is returned with that original column's values
changed (the zero became `1e-6`). -/
def dsDistOnly : Dataset := [("Distance (m)", [Val.num 0])]

theorem c9_counterexample :
    hasCol dsDistOnly "Distance (m)" = true ∧
    processCore trNone at0 km0 0 "unknown" none "N" none 2 dsDistOnly =
      Except.ok [("Distance (m)", [Val.num (1 / 1000000)])] ∧
    getColVals [("Distance (m)", [Val.num (1 / 1000000)])] "Distance (m)" ≠
      getColVals dsDistOnly "Distance (m)" := by
  refine ⟨rfl, rfl, ?_⟩
  norm_num [getColVals, dsDistOnly, List.find?, Val.num.injEq]
